import Mathlib

/-!
Shallow embedding of the employee-management backend's core logic:
role-permission model (`app/core/permissions.py`), authorization gate
(`app/api/deps.py`), attendance policy and state machine
(`app/api/v1/attendance.py`), blog update authorization
(`app/api/v1/blogs.py`) and the forgot-password flow (`app/api/v1/auth.py`).
Machine times-of-day are modelled as rational seconds since midnight
(Python's `datetime.time` has microsecond resolution; all values occurring
in the code are rational).  Python `float` arithmetic is idealised as exact
rational arithmetic; `round(x, 2)` is modelled as round-half-to-even on
rationals, matching CPython's documented behaviour on exactly
representable values.
-/

namespace EMS

/-- `UserRole` from `app/models/user.py`: a closed string enum. -/
inductive UserRole where
  | SUPER_ADMIN
  | ADMIN
  | PROJECT_MANAGER
  | EMPLOYEE
  | CONTENT_EDITOR
  deriving DecidableEq, Repr

/-- The string value carried by each `UserRole` member (`str` mixin enum). -/
def UserRole.value : UserRole → String
  | .SUPER_ADMIN => "super_admin"
  | .ADMIN => "admin"
  | .PROJECT_MANAGER => "project_manager"
  | .EMPLOYEE => "employee"
  | .CONTENT_EDITOR => "content_editor"

/-- `ROLE_PERMISSIONS` from `app/core/permissions.py`: a dict from role to
permission-string list.  Because `UserRole` is a `str` enum, dict lookup is
by the role's string value, so the table is embedded as an association list
keyed by those strings; a lookup with any key not listed falls through to
the dict's `.get` default. -/
def ROLE_PERMISSIONS : List (String × List String) :=
  [ ("super_admin",
      [ "manage_users", "manage_employees", "manage_projects", "manage_tasks",
        "manage_blogs", "manage_settings", "view_all_attendance", "manage_attendance" ]),
    ("admin",
      [ "manage_employees", "manage_projects", "manage_tasks", "manage_blogs",
        "view_all_attendance", "manage_attendance" ]),
    ("project_manager",
      [ "create_projects", "manage_own_projects", "create_tasks", "manage_tasks",
        "view_team_attendance" ]),
    ("employee",
      [ "view_own_tasks", "update_own_tasks", "mark_attendance", "view_own_attendance" ]),
    ("content_editor",
      [ "create_blogs", "edit_own_blogs", "view_blogs" ]) ]

/-- `ROLE_PERMISSIONS.get(user_role, [])`. -/
def rolePermissionsGet (user_role : String) : List String :=
  match ROLE_PERMISSIONS.find? (fun kv => kv.fst == user_role) with
  | some kv => kv.snd
  | none => []

/-- `has_permission` from `app/core/permissions.py`. -/
def has_permission (user_role : String) (permission : String) : Bool :=
  rolePermissionsGet user_role |>.contains permission

/-- `get_user_permissions` from `app/core/permissions.py`. -/
def get_user_permissions (user_role : String) : List String :=
  rolePermissionsGet user_role

/-- The keys actually present in the `ROLE_PERMISSIONS` dict. -/
def rolePermissionKeys : List String := ROLE_PERMISSIONS.map Prod.fst

/-- HTTP-level error outcome of a dependency / endpoint guard:
`HTTPException(status_code, detail)`. -/
structure HttpError where
  status_code : Nat
  detail : String
  deriving DecidableEq, Repr

/-- `require_role(required_roles)` from `app/api/deps.py`: the inner
`role_checker` applied to an authenticated user's role.  Returns the user's
role on success, a 403 otherwise. -/
def require_role (required_roles : List UserRole) (role : UserRole) :
    Except HttpError UserRole :=
  if role ∈ required_roles then
    .ok role
  else
    .error ⟨403, "Not enough permissions"⟩

/-- The inline admin gate of `get_all_today_attendance` in
`app/api/v1/attendance.py`: `current_user.role not in [SUPER_ADMIN, ADMIN]`
raises 403 "Not authorized". -/
def allTodayAttendanceGate (role : UserRole) : Except HttpError Unit :=
  if (role = UserRole.SUPER_ADMIN ∨ role = UserRole.ADMIN) then .ok ()
  else .error ⟨403, "Not authorized"⟩

/-! ### Attendance policy (`app/api/v1/attendance.py`) -/

/-- `AttendanceStatus` from `app/models/attendance.py`. -/
inductive AttendanceStatus where
  | PRESENT
  | LATE
  | HALF_DAY
  | ABSENT
  | LEAVE
  deriving DecidableEq, Repr

/-- Split a character list at every colon. -/
def splitColon : List Char → List (List Char)
  | [] => [[]]
  | c :: rest =>
    match splitColon rest with
    | [] => [[]]
    | hd :: tl => if c = ':' then [] :: hd :: tl else (c :: hd) :: tl

/-- The value of a non-empty all-digit character list. -/
def digitsVal? (cs : List Char) : Option Nat :=
  if cs ≠ [] ∧ cs.all Char.isDigit then
    some (cs.foldl (fun n c => 10 * n + (c.toNat - 48)) 0)
  else none

/-- `datetime.strptime(s, "%H:%M").time()` restricted to its use on the
config string: parses an hour and minute field separated by a colon into
seconds since midnight, `none` when the string is not a valid `%H:%M`
time (where `strptime` raises). -/
def parseHM (s : String) : Option Nat :=
  match splitColon s.toList with
  | [h, m] =>
    match digitsVal? h, digitsVal? m with
    | some hh, some mm => if hh < 24 && mm < 60 then some (hh * 3600 + mm * 60) else none
    | _, _ => none
  | _ => none

/-- The configuration fields read by the attendance policy
(`app/config.py`, class `Settings`). -/
structure Settings where
  OFFICE_START_TIME : String
  GRACE_PERIOD_MINUTES : ℚ
  deriving DecidableEq, Repr

/-- The defaults in `app/config.py`: office start "09:30", grace 15. -/
def defaultSettings : Settings :=
  { OFFICE_START_TIME := "09:30", GRACE_PERIOD_MINUTES := 15 }

/-- Office configuration after the `strptime` parse performed inside
`calculate_status`: office start as seconds since midnight, grace minutes. -/
structure OfficeConfig where
  office_start : ℚ
  grace_minutes : ℚ
  deriving DecidableEq, Repr

/-- The `OfficeConfig` obtained from a `Settings` value, `none` when
`OFFICE_START_TIME` does not parse. -/
def officeConfigOf (s : Settings) : Option OfficeConfig :=
  (parseHM s.OFFICE_START_TIME).map fun start =>
    { office_start := (start : ℚ), grace_minutes := s.GRACE_PERIOD_MINUTES }

/-- `calculate_status` from `app/api/v1/attendance.py`: the signed
difference in minutes between check-in and office start, compared against
the grace period.  Times-of-day are rational seconds since midnight; both
are combined with `date.today()` in the source, so the date cancels in the
subtraction. -/
def calculate_status (cfg : OfficeConfig) (check_in_time : ℚ) : AttendanceStatus :=
  let diff_minutes := (check_in_time - cfg.office_start) / 60
  if diff_minutes ≤ cfg.grace_minutes then .PRESENT else .LATE

/-- CPython's `round` to an integer: nearest, ties to even (idealised to
exact rational arithmetic). -/
def pyRoundInt (x : ℚ) : ℤ :=
  let f := Int.floor x
  let frac := x - f
  if frac < 1 / 2 then f
  else if 1 / 2 < frac then f + 1
  else if f % 2 = 0 then f else f + 1

/-- Python `round(x, 2)`. -/
def round2 (x : ℚ) : ℚ :=
  (pyRoundInt (x * 100) : ℚ) / 100

/-- `calculate_working_hours` from `app/api/v1/attendance.py`: both times
are combined with `date.today()`, so the difference is check-out minus
check-in in seconds, converted to hours and rounded to two decimals.  No
ordering check is performed by the source. -/
def calculate_working_hours (check_in check_out : ℚ) : ℚ :=
  let diff := check_out - check_in
  round2 (diff / 3600)

/-- One row of the `attendance` table (`app/models/attendance.py`).
`date` is an abstract calendar-day index; audit timestamps are omitted. -/
structure Attendance where
  id : Nat
  employee_id : Nat
  date : Nat
  check_in_time : Option ℚ
  check_out_time : Option ℚ
  status : AttendanceStatus
  working_hours : ℚ
  remarks : Option String
  deriving DecidableEq, Repr

/-- The fields of `app/models/employee.py` used by the attendance
endpoints: the employee row id and the linked user id. -/
structure Employee where
  id : Nat
  user_id : Nat
  deriving DecidableEq, Repr

/-- The query `db.query(Attendance).filter(employee_id == e, date == d).first()`. -/
def findAttendance (db : List Attendance) (emp today : Nat) : Option Attendance :=
  db.find? fun r => r.employee_id == emp && r.date == today

/-- SQLAlchemy mutates the row object returned by `.first()` and `commit`
persists it: modelled as replacing the first row matching the query
predicate. -/
def replaceFirst {α : Type} (p : α → Bool) (f : α → α) : List α → List α
  | [] => []
  | r :: rs => if p r then f r :: rs else r :: replaceFirst p f rs

/-- `check_in` from `app/api/v1/attendance.py`.  `user_id` identifies the
authenticated user, `today` the current day, `now` the current
time-of-day.  On success returns the committed table and the refreshed
record returned to the client. -/
def check_in (cfg : OfficeConfig) (employees : List Employee) (db : List Attendance)
    (user_id today : Nat) (now : ℚ) : Except HttpError (List Attendance × Attendance) :=
  match employees.find? (fun e => e.user_id == user_id) with
  | none => .error ⟨404, "Employee profile not found"⟩
  | some employee =>
    match findAttendance db employee.id today with
    | some existing =>
      if existing.check_in_time.isSome then
        .error ⟨400, "Already checked in today"⟩
      else
        let updated := { existing with
          check_in_time := some now, status := calculate_status cfg now }
        .ok (replaceFirst (fun r => r.employee_id == employee.id && r.date == today)
              (fun _ => updated) db, updated)
    | none =>
      let attendance : Attendance :=
        { id := db.length, employee_id := employee.id, date := today,
          check_in_time := some now, check_out_time := none,
          status := calculate_status cfg now, working_hours := 0, remarks := none }
      .ok (db ++ [attendance], attendance)

/-- `check_out` from `app/api/v1/attendance.py`. -/
def check_out (employees : List Employee) (db : List Attendance)
    (user_id today : Nat) (now : ℚ) : Except HttpError (List Attendance × Attendance) :=
  match employees.find? (fun e => e.user_id == user_id) with
  | none => .error ⟨404, "Employee profile not found"⟩
  | some employee =>
    match findAttendance db employee.id today with
    | none => .error ⟨400, "Please check in first"⟩
    | some attendance =>
      match attendance.check_in_time with
      | none => .error ⟨400, "Please check in first"⟩
      | some ci =>
        if attendance.check_out_time.isSome then
          .error ⟨400, "Already checked out"⟩
        else
          let updated := { attendance with
            check_out_time := some now,
            working_hours := calculate_working_hours ci now }
          .ok (replaceFirst (fun r => r.employee_id == employee.id && r.date == today)
                (fun _ => updated) db, updated)

/-- One client-visible attendance operation. -/
inductive Op where
  | checkIn (user_id today : Nat) (now : ℚ)
  | checkOut (user_id today : Nat) (now : ℚ)

/-- Apply one operation to the table; a raised `HTTPException` aborts the
request before commit, leaving the table unchanged. -/
def applyOp (cfg : OfficeConfig) (employees : List Employee)
    (db : List Attendance) : Op → List Attendance
  | .checkIn u d t =>
    match check_in cfg employees db u d t with
    | .ok out => out.fst
    | .error _ => db
  | .checkOut u d t =>
    match check_out employees db u d t with
    | .ok out => out.fst
    | .error _ => db

/-- Run a sequence of operations from the empty table. -/
def runOps (cfg : OfficeConfig) (employees : List Employee) (ops : List Op) :
    List Attendance :=
  ops.foldl (applyOp cfg employees) []

/-- The (employee, day) key of a record. -/
def keyOf (r : Attendance) : Nat × Nat := (r.employee_id, r.date)

/-- At most one attendance record per (employee, day). -/
def UniqueKeys (db : List Attendance) : Prop := (db.map keyOf).Nodup

/-! ### Blog update authorization (`app/api/v1/blogs.py`) -/

/-- The fields of `app/models/blog.py` touched by `update_blog`. -/
structure Blog where
  id : Nat
  author_id : Nat
  title : String
  content : String
  excerpt : Option String
  meta_title : Option String
  meta_description : Option String
  tags : Option String
  deriving DecidableEq, Repr

/-- The `BlogUpdate` request schema: optional patch fields. -/
structure BlogUpdate where
  title : Option String := none
  content : Option String := none
  excerpt : Option String := none
  meta_title : Option String := none
  meta_description : Option String := none
  tags : Option String := none
  deriving DecidableEq, Repr

/-- The field-by-field `if blog_data.x is not None` assignments of
`update_blog`. -/
def applyBlogPatch (b : Blog) (p : BlogUpdate) : Blog :=
  { b with
    title := p.title.getD b.title,
    content := p.content.getD b.content,
    excerpt := match p.excerpt with | some v => some v | none => b.excerpt,
    meta_title := match p.meta_title with | some v => some v | none => b.meta_title,
    meta_description :=
      match p.meta_description with | some v => some v | none => b.meta_description,
    tags := match p.tags with | some v => some v | none => b.tags }

/-- `update_blog` from `app/api/v1/blogs.py`: 404 when the blog id is
unknown; 403 only when the caller is a CONTENT_EDITOR who is not the
author; otherwise the patch is applied and committed. -/
def update_blog (blogs : List Blog) (blog_id : Nat) (role : UserRole)
    (user_id : Nat) (blog_data : BlogUpdate) : Except HttpError (List Blog) :=
  match blogs.find? (fun b => b.id == blog_id) with
  | none => .error ⟨404, "Blog not found"⟩
  | some blog =>
    if role = UserRole.CONTENT_EDITOR ∧ blog.author_id ≠ user_id then
      .error ⟨403, "Not authorized"⟩
    else
      .ok (replaceFirst (fun b => b.id == blog_id)
            (fun _ => applyBlogPatch blog blog_data) blogs)

/-- Whether an endpoint call succeeded. -/
def succeeds {α : Type} : Except HttpError α → Bool
  | .ok _ => true
  | .error _ => false

/-- The spec's authorization predicate for blog update, written from the
spec's words (`is_owner(identity, resource) OR role_check(...)`, with the
role check being membership in the admin-only role list from which
CONTENT_EDITOR is absent): used only to compare against the source's
`update_blog`. -/
def spec_update_blog_allowed (role : UserRole) (user_id author_id : Nat) : Prop :=
  author_id = user_id ∨ role = UserRole.SUPER_ADMIN ∨ role = UserRole.ADMIN

instance (role : UserRole) (user_id author_id : Nat) :
    Decidable (spec_update_blog_allowed role user_id author_id) := by
  unfold spec_update_blog_allowed; infer_instance

/-! ### Forgot-password flow (`app/api/v1/auth.py`) -/

/-- The fields of `app/models/user.py` consulted by `forgot_password`. -/
structure UserRec where
  id : Nat
  email : String
  deriving DecidableEq, Repr

/-- One entry of the in-memory `reset_codes` dict: code and expiry. -/
structure ResetEntry where
  code : String
  expires_at : ℚ
  deriving DecidableEq, Repr

/-- The state visible to `forgot_password`: the users table and the
process-local `reset_codes` dict (an association list keyed by email). -/
structure AuthState where
  users : List UserRec
  reset_codes : List (String × ResetEntry)
  deriving DecidableEq, Repr

/-- Dict assignment `reset_codes[email] = entry`: replace the entry if the
key is present, insert it otherwise. -/
def setKey (m : List (String × ResetEntry)) (k : String) (v : ResetEntry) :
    List (String × ResetEntry) :=
  if m.any (fun kv => kv.fst == k) then
    m.map fun kv => if kv.fst == k then (k, v) else kv
  else
    m ++ [(k, v)]

/-- `forgot_password` from `app/api/v1/auth.py`.  `freshCode` stands for
the six random digits drawn from `secrets.randbelow`; `now` for
`datetime.utcnow()` in abstract minutes.  Returns the response message and
the state after the request; the handler has no raise path. -/
def forgot_password (st : AuthState) (email : String) (freshCode : String)
    (now : ℚ) : String × AuthState :=
  match st.users.find? (fun u => u.email == email) with
  | none => ("If the email exists, a reset code will be sent", st)
  | some _ =>
    ("If the email exists, a reset code will be sent",
     { st with reset_codes := setKey st.reset_codes email ⟨freshCode, now + 10⟩ })

/-! ### Concrete inputs used in counterexamples and witnesses -/

/-- Employee table with one employee (row id 1, user id 10). -/
def oneEmployee : List Employee := [⟨1, 10⟩]

/-- A record checked in at 17:00 (61200 s) on day 0, not yet checked out. -/
def eveningCheckInDb : List Attendance :=
  [⟨0, 1, 0, some 61200, none, .PRESENT, 0, none⟩]

/-- The record produced by checking the above out at 09:00 (32400 s):
working hours round2((32400 - 61200) / 3600), which evaluates to -8. -/
def eveningCheckOutRec : Attendance :=
  ⟨0, 1, 0, some 61200, some 32400, .PRESENT, calculate_working_hours 61200 32400, none⟩

/-- A record checked in at 09:00 (32400 s) on day 0, not yet checked out. -/
def morningCheckInDb : List Attendance :=
  [⟨0, 1, 0, some 32400, none, .PRESENT, 0, none⟩]

/-- The record produced by checking the above out at 17:30 (63000 s):
working hours round2((63000 - 32400) / 3600), which evaluates to 8.5. -/
def morningCheckOutRec : Attendance :=
  ⟨0, 1, 0, some 32400, some 63000, .PRESENT, calculate_working_hours 32400 63000, none⟩

/-- A fully checked-out record on day 0. -/
def doneDb : List Attendance :=
  [⟨0, 1, 0, some 32400, some 63000, .PRESENT, 17 / 2, none⟩]

/-- A blog (id 1) authored by user 99. -/
def blogBy99 : Blog := ⟨1, 99, "t", "c", none, none, none, none⟩

/-- A blog (id 1) authored by user 7. -/
def blogBy7 : Blog := ⟨1, 7, "t", "c", none, none, none, none⟩

/-- An empty patch. -/
def emptyPatch : BlogUpdate := {}

/-- The record created by a fresh check-in at 09:00 on day 0 under the
default office configuration, starting from an empty table. -/
def morningInRec : Attendance :=
  ⟨0, 1, 0, some 32400, none, calculate_status ⟨34200, 15⟩ 32400, 0, none⟩

/-- The record after checking `morningInRec` out at 17:30 (63000 s). -/
def morningChainOutRec : Attendance :=
  ⟨0, 1, 0, some 32400, some 63000, calculate_status ⟨34200, 15⟩ 32400,
    calculate_working_hours 32400 63000, none⟩

end EMS

/-- Decidable equality on `Except`, for evaluating endpoint outcomes on
concrete inputs. -/
instance {ε α : Type} [DecidableEq ε] [DecidableEq α] : DecidableEq (Except ε α)
  | .error e, .error f =>
    if h : e = f then .isTrue (by rw [h]) else .isFalse (by simp [h])
  | .error _, .ok _ => .isFalse (by simp)
  | .ok _, .error _ => .isFalse (by simp)
  | .ok a, .ok b =>
    if h : a = b then .isTrue (by rw [h]) else .isFalse (by simp [h])

namespace EMS

/-- Claim C2: for every configuration and check-in time, the computed
status is Present iff the difference in minutes between check-in and the
configured office start is at most the grace period, and Late otherwise;
with the default config (office start 09:30, grace 15) a 09:44 check-in is
Present and a 09:46 check-in is Late. -/
theorem status_grace_boundary :
    (∀ (cfg : OfficeConfig) (t : ℚ),
        (calculate_status cfg t = .PRESENT ↔
          (t - cfg.office_start) / 60 ≤ cfg.grace_minutes) ∧
        (calculate_status cfg t = .LATE ↔
          ¬ (t - cfg.office_start) / 60 ≤ cfg.grace_minutes)) ∧
    parseHM defaultSettings.OFFICE_START_TIME = some 34200 ∧
    defaultSettings.GRACE_PERIOD_MINUTES = 15 ∧
    calculate_status ⟨34200, 15⟩ (9 * 3600 + 44 * 60) = .PRESENT ∧
    calculate_status ⟨34200, 15⟩ (9 * 3600 + 46 * 60) = .LATE := by
  refine ⟨fun cfg t => ?_, by decide, rfl, by norm_num [calculate_status],
    by norm_num [calculate_status]⟩
  unfold calculate_status
  by_cases h : (t - cfg.office_start) / 60 ≤ cfg.grace_minutes <;> simp [h]

/-- Claim C6: a role string absent from the `ROLE_PERMISSIONS` table gets
the empty permission list and `has_permission` is false for every
permission; the lookup is total (fail-closed). -/
theorem unknown_role_fail_closed (role : String)
    (h : role ∉ rolePermissionKeys) :
    get_user_permissions role = [] ∧
    ∀ p : String, has_permission role p = false := by
  have hfind : ROLE_PERMISSIONS.find? (fun kv => kv.fst == role) = none := by
    apply List.find?_eq_none.mpr
    intro kv hkv
    simp only [beq_iff_eq]
    intro hEq
    exact h (hEq ▸ List.mem_map_of_mem Prod.fst hkv)
  refine ⟨?_, fun p => ?_⟩
  · simp [get_user_permissions, rolePermissionsGet, hfind]
  · simp [has_permission, rolePermissionsGet, hfind]

/-- Witness for C6 at the concrete unknown role "manager". -/
theorem unknown_role_fail_closed_witness :
    "manager" ∉ rolePermissionKeys ∧
    (get_user_permissions "manager" = [] ∧
      ∀ p : String, has_permission "manager" p = false) :=
  ⟨by decide, unknown_role_fail_closed "manager" (by decide)⟩

/-- Claim C8: the role-list gate allows exactly the identities whose role
is a member of the allow-list, and denies with a 403 otherwise; an
EMPLOYEE is denied against the allow-list [ADMIN, SUPER_ADMIN], as is the
inline admin gate of the all-today endpoint. -/
theorem role_list_exact_membership :
    (∀ (required_roles : List UserRole) (role : UserRole),
        (require_role required_roles role = .ok role ↔ role ∈ required_roles) ∧
        (role ∉ required_roles →
          require_role required_roles role = .error ⟨403, "Not enough permissions"⟩)) ∧
    require_role [UserRole.ADMIN, UserRole.SUPER_ADMIN] UserRole.EMPLOYEE
      = .error ⟨403, "Not enough permissions"⟩ ∧
    allTodayAttendanceGate UserRole.EMPLOYEE = .error ⟨403, "Not authorized"⟩ := by
  refine ⟨fun required_roles role => ?_, by decide, by decide⟩
  unfold require_role
  by_cases h : role ∈ required_roles <;> simp [h]

/-- Claim C10: the forgot-password response is the same fixed message
whether or not a user with the email exists, and the users table is
unchanged; only the reset-code store can differ between the two runs. -/
theorem forgot_password_uniform_response :
    ∀ (st : AuthState) (email freshCode : String) (now : ℚ),
      (forgot_password st email freshCode now).fst =
        "If the email exists, a reset code will be sent" ∧
      (forgot_password st email freshCode now).snd.users = st.users := by
  intro st email freshCode now
  unfold forgot_password
  cases h : st.users.find? (fun u => u.email == email) <;> simp

/-- CPython `round` is the identity on integers. -/
theorem pyRoundInt_intCast (n : ℤ) : pyRoundInt (n : ℚ) = n := by
  unfold pyRoundInt
  norm_num

/-- 17:00 in, 09:00 out: the computed working hours are -8. -/
theorem working_hours_evening : calculate_working_hours 61200 32400 = -8 := by
  unfold calculate_working_hours round2
  dsimp only
  rw [show ((32400 - 61200 : ℚ) / 3600 * 100) = ((-800 : ℤ) : ℚ) by norm_num,
    pyRoundInt_intCast]
  norm_num

/-- 09:00 in, 17:30 out: the computed working hours are 8.5. -/
theorem working_hours_morning : calculate_working_hours 32400 63000 = 17 / 2 := by
  unfold calculate_working_hours round2
  dsimp only
  rw [show ((63000 - 32400 : ℚ) / 3600 * 100) = ((850 : ℤ) : ℚ) by norm_num,
    pyRoundInt_intCast]
  norm_num

/-- Claim C1 (failing input): a check-out whose time-of-day is earlier
than the recorded check-in succeeds and commits a negative working-hours
value; no error is raised.  Check-in 17:00 (61200 s), check-out 09:00
(32400 s): the stored working_hours is -8. -/
theorem checkout_stores_negative_hours :
    check_out oneEmployee eveningCheckInDb 10 0 32400
      = .ok ([eveningCheckOutRec], eveningCheckOutRec) ∧
    eveningCheckOutRec.working_hours = -8 ∧
    eveningCheckOutRec.working_hours < 0 := by
  refine ⟨rfl, working_hours_evening, ?_⟩
  rw [show eveningCheckOutRec.working_hours = calculate_working_hours 61200 32400 from rfl,
    working_hours_evening]
  norm_num

/-- Claim C5 (counterexample): the blog-update gate is not equivalent to
"owner OR member of the admin role-list": an EMPLOYEE (user 7) who is not
the author of blog 1 (authored by user 99) is allowed to update it, while
the spec predicate denies. -/
theorem update_blog_not_owner_or_admin :
    ¬ (succeeds (update_blog [blogBy99] 1 UserRole.EMPLOYEE 7 emptyPatch) = true ↔
        spec_update_blog_allowed UserRole.EMPLOYEE 7 99) := by
  decide

/-- Claim C5 (amended): for every blog that exists, update_blog allows the
identity iff the identity is the blog's author or its role is not
CONTENT_EDITOR (OR semantics: ownership alone suffices); in particular a
CONTENT_EDITOR who authored the blog may update it. -/
theorem update_blog_owner_or_non_editor (blogs : List Blog) (blog_id : Nat)
    (role : UserRole) (user_id : Nat) (blog_data : BlogUpdate) (blog : Blog)
    (hfind : blogs.find? (fun b => b.id == blog_id) = some blog) :
    (succeeds (update_blog blogs blog_id role user_id blog_data) = true ↔
      (blog.author_id = user_id ∨ role ≠ UserRole.CONTENT_EDITOR)) ∧
    succeeds (update_blog [blogBy7] 1 UserRole.CONTENT_EDITOR 7 emptyPatch) = true := by
  refine ⟨?_, by decide⟩
  unfold update_blog
  rw [hfind]
  dsimp only
  by_cases h : role = UserRole.CONTENT_EDITOR ∧ blog.author_id ≠ user_id
  · rw [if_pos h]
    simp only [succeeds, Bool.false_eq_true, false_iff]
    rintro (hc | hc)
    · exact h.2 hc
    · exact hc h.1
  · rw [if_neg h]
    simp only [succeeds, true_iff]
    by_cases hr : role = UserRole.CONTENT_EDITOR
    · left
      by_contra hne
      exact h ⟨hr, hne⟩
    · right; exact hr

/-- Witness for C5 (amended) at a concrete existing blog. -/
theorem update_blog_owner_or_non_editor_witness :
    [blogBy99].find? (fun b => b.id == 1) = some blogBy99 ∧
    ((succeeds (update_blog [blogBy99] 1 UserRole.SUPER_ADMIN 7 emptyPatch) = true ↔
        (blogBy99.author_id = 7 ∨ UserRole.SUPER_ADMIN ≠ UserRole.CONTENT_EDITOR)) ∧
      succeeds (update_blog [blogBy7] 1 UserRole.CONTENT_EDITOR 7 emptyPatch) = true) :=
  ⟨by decide,
    update_blog_owner_or_non_editor [blogBy99] 1 UserRole.SUPER_ADMIN 7 emptyPatch
      blogBy99 (by decide)⟩

end EMS

namespace EMS

/-- `replaceFirst` preserves length. -/
theorem length_replaceFirst {α : Type} (p : α → Bool) (f : α → α) (l : List α) :
    (replaceFirst p f l).length = l.length := by
  induction l with
  | nil => rfl
  | cons b l ih => by_cases hb : p b <;> simp [replaceFirst, hb, ih]

/-- Appending after a failed search: the search continues in the suffix. -/
theorem find?_append_of_none {α : Type} {p : α → Bool} {l₁ : List α} (l₂ : List α)
    (h : l₁.find? p = none) : (l₁ ++ l₂).find? p = l₂.find? p := by
  rw [List.find?_append, h, Option.none_or]

/-- Replacing the first match with a still-matching element: a new search
finds the replacement. -/
theorem find?_replaceFirst_const {α : Type} {p : α → Bool} (u : α) {l : List α}
    {a : α} (h : l.find? p = some a) (hu : p u = true) :
    (replaceFirst p (fun _ => u) l).find? p = some u := by
  induction l with
  | nil => simp at h
  | cons b l ih =>
    by_cases hb : p b
    · simp only [replaceFirst, if_pos hb]
      exact List.find?_cons_of_pos _ hu
    · rw [List.find?_cons_of_neg _ hb] at h
      simp only [replaceFirst, if_neg hb]
      rw [List.find?_cons_of_neg _ hb]
      exact ih h

/-- Replacing the first match with an element of equal image leaves the
mapped list unchanged. -/
theorem map_replaceFirst_const {α β : Type} {p : α → Bool} (u : α) (g : α → β)
    {l : List α} {a : α} (h : l.find? p = some a) (hg : g u = g a) :
    (replaceFirst p (fun _ => u) l).map g = l.map g := by
  induction l with
  | nil => simp at h
  | cons b l ih =>
    by_cases hb : p b
    · rw [List.find?_cons_of_pos _ hb] at h
      injection h with h
      simp only [replaceFirst, if_pos hb, List.map_cons]
      rw [hg, h]
    · rw [List.find?_cons_of_neg _ hb] at h
      simp only [replaceFirst, if_neg hb, List.map_cons, ih h]

/-- Inversion of a successful check-in: the employee resolved, and either
an existing record for today without a check-in time was updated in place,
or no record existed and a fresh one was appended. -/
theorem check_in_ok_inv {cfg : OfficeConfig} {employees : List Employee}
    {db : List Attendance} {u d : Nat} {t : ℚ} {db' : List Attendance}
    {r : Attendance} (h : check_in cfg employees db u d t = .ok (db', r)) :
    ∃ e, employees.find? (fun x => x.user_id == u) = some e ∧
      ((∃ a, findAttendance db e.id d = some a ∧ a.check_in_time = none ∧
          r = { a with check_in_time := some t, status := calculate_status cfg t } ∧
          db' = replaceFirst (fun x => x.employee_id == e.id && x.date == d)
                  (fun _ => r) db) ∨
       (findAttendance db e.id d = none ∧
          r = { id := db.length, employee_id := e.id, date := d,
                check_in_time := some t, check_out_time := none,
                status := calculate_status cfg t, working_hours := 0,
                remarks := none } ∧
          db' = db ++ [r])) := by
  unfold check_in at h
  split at h
  · cases h
  next e he =>
    refine ⟨e, he, ?_⟩
    split at h
    next a hf =>
      split at h
      · cases h
      next hnis =>
        have hci : a.check_in_time = none := by
          cases hc : a.check_in_time with
          | none => rfl
          | some ci => rw [hc] at hnis; simp at hnis
        simp only [Except.ok.injEq, Prod.mk.injEq] at h
        obtain ⟨hdb, hr⟩ := h
        exact Or.inl ⟨a, hf, hci, hr.symm, by rw [← hdb, ← hr]⟩
    next hf =>
      simp only [Except.ok.injEq, Prod.mk.injEq] at h
      obtain ⟨hdb, hr⟩ := h
      exact Or.inr ⟨hf, hr.symm, by rw [← hdb, ← hr]⟩

/-- Inversion of a successful check-out: the employee resolved, today's
record exists with a check-in time and no check-out time, and it is
updated in place with the check-out time and the computed working hours. -/
theorem check_out_ok_inv {employees : List Employee} {db : List Attendance}
    {u d : Nat} {t : ℚ} {db' : List Attendance} {r : Attendance}
    (h : check_out employees db u d t = .ok (db', r)) :
    ∃ e a ci, employees.find? (fun x => x.user_id == u) = some e ∧
      findAttendance db e.id d = some a ∧
      a.check_in_time = some ci ∧
      a.check_out_time = none ∧
      r = { a with check_out_time := some t,
                   working_hours := calculate_working_hours ci t } ∧
      db' = replaceFirst (fun x => x.employee_id == e.id && x.date == d)
              (fun _ => r) db := by
  unfold check_out at h
  split at h
  · cases h
  next e he =>
    split at h
    · cases h
    next a hf =>
      split at h
      · cases h
      next ci hci =>
        split at h
        · cases h
        next hnos =>
          have hco : a.check_out_time = none := by
            cases hc : a.check_out_time with
            | none => rfl
            | some x => rw [hc] at hnos; simp at hnos
          simp only [Except.ok.injEq, Prod.mk.injEq] at h
          obtain ⟨hdb, hr⟩ := h
          exact ⟨e, a, ci, he, hf, hci, hco, hr.symm, by rw [← hdb, ← hr]⟩

/-- A step of the per-day state machine preserves key uniqueness. -/
theorem uniqueKeys_applyOp {cfg : OfficeConfig} {employees : List Employee}
    {db : List Attendance} (op : Op) (h : UniqueKeys db) :
    UniqueKeys (applyOp cfg employees db op) := by
  cases op with
  | checkIn u d t =>
    dsimp only [applyOp]
    cases hc : check_in cfg employees db u d t with
    | error e => exact h
    | ok out =>
      dsimp only
      obtain ⟨e, he, hcase⟩ := check_in_ok_inv hc
      rcases hcase with ⟨a, hfa, _, hr, hdb⟩ | ⟨hfa, hr, hdb⟩
      · unfold UniqueKeys
        rw [hdb, map_replaceFirst_const _ keyOf hfa (by rw [hr]; rfl)]
        exact h
      · unfold UniqueKeys at h ⊢
        rw [hdb, ← List.concat_eq_append, List.map_concat]
        refine List.Nodup.concat ?_ h
        intro hmem
        obtain ⟨x, hx, hkx⟩ := List.mem_map.mp hmem
        have hnp := (List.find?_eq_none.mp hfa) x hx
        have : keyOf out.2 = (e.id, d) := by rw [hr]; rfl
        rw [this] at hkx
        apply hnp
        unfold keyOf at hkx
        have h1 : x.employee_id = e.id := congrArg Prod.fst hkx
        have h2 : x.date = d := congrArg Prod.snd hkx
        simp [findAttendance, h1, h2]
  | checkOut u d t =>
    dsimp only [applyOp]
    cases hc : check_out employees db u d t with
    | error e => exact h
    | ok out =>
      dsimp only
      obtain ⟨e, a, ci, he, hfa, hci, hco, hr, hdb⟩ := check_out_ok_inv hc
      unfold UniqueKeys
      rw [hdb, map_replaceFirst_const _ keyOf hfa (by rw [hr]; rfl)]
      exact h

/-- Key uniqueness holds in every state reachable from the empty table. -/
theorem uniqueKeys_runOps (cfg : OfficeConfig) (employees : List Employee)
    (ops : List Op) : UniqueKeys (runOps cfg employees ops) := by
  suffices h : ∀ db, UniqueKeys db →
      UniqueKeys (ops.foldl (applyOp cfg employees) db) from
    h [] (by simp [UniqueKeys])
  induction ops with
  | nil => intro db hdb; exact hdb
  | cons op ops ih => intro db hdb; exact ih _ (uniqueKeys_applyOp op hdb)

end EMS

namespace EMS

/-- Claim C3: every state reachable by a sequence of check-in/check-out
operations from the empty table has at most one attendance record per
(employee, day), and a successful check-out never creates a record: it
leaves the table length unchanged and requires a pre-existing record with
a check-in time for that employee and day. -/
theorem at_most_one_record_per_employee_day :
    (∀ (cfg : OfficeConfig) (employees : List Employee) (ops : List Op),
        UniqueKeys (runOps cfg employees ops)) ∧
    (∀ (employees : List Employee) (db : List Attendance) (u d : Nat) (t : ℚ)
        (db' : List Attendance) (r : Attendance),
        check_out employees db u d t = .ok (db', r) →
        db'.length = db.length ∧
        ∃ a ∈ db, a.employee_id = r.employee_id ∧ a.date = d ∧
          a.check_in_time.isSome) := by
  refine ⟨fun cfg employees ops => uniqueKeys_runOps cfg employees ops,
    fun employees db u d t db' r h => ?_⟩
  obtain ⟨e, a, ci, he, hfa, hci, hco, hr, hdb⟩ := check_out_ok_inv h
  have hfa' : db.find? (fun x => x.employee_id == e.id && x.date == d)
      = some a := hfa
  have hpa := List.find?_some hfa'
  rw [Bool.and_eq_true, beq_iff_eq, beq_iff_eq] at hpa
  refine ⟨by rw [hdb]; exact length_replaceFirst _ _ _,
    a, List.mem_of_find?_eq_some hfa', ?_, hpa.2, by rw [hci]; rfl⟩
  rw [hr]

/-- Claim C4: each illegal transition is rejected with its error and the
table is unchanged: a second check-in on a day whose record already has a
check-in time fails with 400 "Already checked in today" and the step
leaves the table as it was; a check-out with no record or no check-in
time for today fails with 400 "Please check in first"; a check-out when a
check-out time is already recorded fails with 400 "Already checked out",
and in both check-out error cases the step also leaves the table as it
was. -/
theorem illegal_transitions_rejected :
    (∀ (cfg : OfficeConfig) (employees : List Employee) (db : List Attendance)
        (u d : Nat) (t : ℚ) (e : Employee) (a : Attendance),
        employees.find? (fun x => x.user_id == u) = some e →
        findAttendance db e.id d = some a →
        a.check_in_time.isSome →
        check_in cfg employees db u d t
            = .error ⟨400, "Already checked in today"⟩ ∧
          applyOp cfg employees db (.checkIn u d t) = db) ∧
    (∀ (cfg : OfficeConfig) (employees : List Employee) (db : List Attendance)
        (u d : Nat) (t : ℚ) (e : Employee),
        employees.find? (fun x => x.user_id == u) = some e →
        (findAttendance db e.id d = none ∨
          ∃ a, findAttendance db e.id d = some a ∧ a.check_in_time = none) →
        check_out employees db u d t = .error ⟨400, "Please check in first"⟩ ∧
          applyOp cfg employees db (.checkOut u d t) = db) ∧
    (∀ (cfg : OfficeConfig) (employees : List Employee) (db : List Attendance)
        (u d : Nat) (t : ℚ) (e : Employee) (a : Attendance),
        employees.find? (fun x => x.user_id == u) = some e →
        findAttendance db e.id d = some a →
        a.check_in_time.isSome →
        a.check_out_time.isSome →
        check_out employees db u d t = .error ⟨400, "Already checked out"⟩ ∧
          applyOp cfg employees db (.checkOut u d t) = db) := by
  refine ⟨fun cfg employees db u d t e a he hf hs => ?_,
    fun cfg employees db u d t e he hor => ?_,
    fun cfg employees db u d t e a he hf hcis hcos => ?_⟩
  · have herr : check_in cfg employees db u d t
        = .error ⟨400, "Already checked in today"⟩ := by
      unfold check_in
      rw [he]
      dsimp only
      rw [hf]
      dsimp only
      rw [if_pos hs]
    exact ⟨herr, by dsimp only [applyOp]; rw [herr]⟩
  · have herr : check_out employees db u d t
        = .error ⟨400, "Please check in first"⟩ := by
      unfold check_out
      rw [he]
      dsimp only
      rcases hor with hf | ⟨a, hf, hnone⟩
      · rw [hf]
      · rw [hf]
        dsimp only
        rw [hnone]
    exact ⟨herr, by dsimp only [applyOp]; rw [herr]⟩
  · have herr : check_out employees db u d t
        = .error ⟨400, "Already checked out"⟩ := by
      unfold check_out
      rw [he]
      dsimp only
      rw [hf]
      dsimp only
      obtain ⟨ci, hci⟩ := Option.isSome_iff_exists.mp hcis
      rw [hci]
      dsimp only
      rw [if_pos hcos]
    exact ⟨herr, by dsimp only [applyOp]; rw [herr]⟩

/-- Claim C9: a successful check-out leaves the record's check-in time,
date, employee id, status, row id and remarks unchanged — the status is
not recomputed — and modifies only the check-out time and working-hours
fields, replacing just that record in the table. -/
theorem check_out_modifies_only_checkout_fields {employees : List Employee}
    {db : List Attendance} {u d : Nat} {t : ℚ} {db' : List Attendance}
    {r : Attendance} (h : check_out employees db u d t = .ok (db', r)) :
    ∃ e a, employees.find? (fun x => x.user_id == u) = some e ∧
      findAttendance db e.id d = some a ∧
      r.check_in_time = a.check_in_time ∧
      r.date = a.date ∧
      r.employee_id = a.employee_id ∧
      r.status = a.status ∧
      r.id = a.id ∧
      r.remarks = a.remarks ∧
      r.check_out_time = some t ∧
      (∃ ci, a.check_in_time = some ci ∧
        r.working_hours = calculate_working_hours ci t) ∧
      db' = replaceFirst (fun x => x.employee_id == e.id && x.date == d)
              (fun _ => r) db := by
  obtain ⟨e, a, ci, he, hfa, hci, hco, hr, hdb⟩ := check_out_ok_inv h
  subst hr
  exact ⟨e, a, he, hfa, rfl, rfl, rfl, rfl, rfl, rfl, rfl, ⟨ci, hci, rfl⟩, hdb⟩

/-- Witness for C9: checking out the 09:00 record at 17:30. -/
theorem check_out_modifies_only_checkout_fields_witness :
    check_out oneEmployee morningCheckInDb 10 0 63000
      = .ok ([morningCheckOutRec], morningCheckOutRec) ∧
    ∃ e a, oneEmployee.find? (fun x => x.user_id == 10) = some e ∧
      findAttendance morningCheckInDb e.id 0 = some a ∧
      morningCheckOutRec.check_in_time = a.check_in_time ∧
      morningCheckOutRec.date = a.date ∧
      morningCheckOutRec.employee_id = a.employee_id ∧
      morningCheckOutRec.status = a.status ∧
      morningCheckOutRec.id = a.id ∧
      morningCheckOutRec.remarks = a.remarks ∧
      morningCheckOutRec.check_out_time = some 63000 ∧
      (∃ ci, a.check_in_time = some ci ∧
        morningCheckOutRec.working_hours = calculate_working_hours ci 63000) ∧
      [morningCheckOutRec] = replaceFirst
        (fun x => x.employee_id == e.id && x.date == 0)
        (fun _ => morningCheckOutRec) morningCheckInDb :=
  ⟨rfl, check_out_modifies_only_checkout_fields rfl⟩

end EMS

namespace EMS

/-- Claim C7: after a check-in at time `ci` followed by a successful
check-out at time `co` for the same employee and day, the stored
working-hours value is the difference in hours between check-out and
check-in, rounded to two decimal places; in particular check-in 09:00 and
check-out 17:30 yield exactly 8.5. -/
theorem stored_working_hours_eq_rounded_diff {cfg : OfficeConfig}
    {employees : List Employee} {db : List Attendance} {u d : Nat} {ci co : ℚ}
    {db1 : List Attendance} {r1 : Attendance} {db2 : List Attendance}
    {r2 : Attendance}
    (h1 : check_in cfg employees db u d ci = .ok (db1, r1))
    (h2 : check_out employees db1 u d co = .ok (db2, r2)) :
    r2.working_hours = round2 ((co - ci) / 3600) ∧
    calculate_working_hours (9 * 3600) (17 * 3600 + 30 * 60) = 17 / 2 := by
  have hinstance : calculate_working_hours (9 * 3600) (17 * 3600 + 30 * 60)
      = 17 / 2 := by
    have h0 : ((9 : ℚ) * 3600) = 32400 := by norm_num
    have h1' : ((17 : ℚ) * 3600 + 30 * 60) = 63000 := by norm_num
    rw [h0, h1', working_hours_morning]
  refine ⟨?_, hinstance⟩
  obtain ⟨e, he, hcase⟩ := check_in_ok_inv h1
  obtain ⟨e', a', ci', he', hfa', hci', hco', hr2, hdb2⟩ := check_out_ok_inv h2
  rw [he] at he'
  injection he' with he'
  subst he'
  have hkey : r1.check_in_time = some ci ∧ findAttendance db1 e.id d = some r1 := by
    rcases hcase with ⟨a, hfa, hcin, hr1, hdb1⟩ | ⟨hfa, hr1, hdb1⟩
    · have hfa0 : db.find? (fun x => x.employee_id == e.id && x.date == d)
          = some a := hfa
      refine ⟨by rw [hr1], ?_⟩
      rw [hdb1]
      refine find?_replaceFirst_const r1 hfa0 ?_
      have hpa := List.find?_some hfa0
      rw [hr1]
      exact hpa
    · have hfa0 : db.find? (fun x => x.employee_id == e.id && x.date == d)
          = none := hfa
      refine ⟨by rw [hr1], ?_⟩
      rw [hdb1]
      show (db ++ [r1]).find? (fun x => x.employee_id == e.id && x.date == d)
          = some r1
      rw [find?_append_of_none _ hfa0]
      apply List.find?_cons_of_pos
      rw [hr1]
      simp
  obtain ⟨hr1ci, hfr1⟩ := hkey
  rw [hfr1] at hfa'
  injection hfa' with hfa'
  subst hfa'
  rw [hr1ci] at hci'
  injection hci' with hci'
  subst hci'
  rw [hr2]
  rfl

/-- Witness for C7: a concrete 09:00 check-in followed by a 17:30
check-out from the empty table under the default configuration. -/
theorem stored_working_hours_witness :
    check_in ⟨34200, 15⟩ oneEmployee [] 10 0 32400 = .ok ([morningInRec], morningInRec) ∧
    check_out oneEmployee [morningInRec] 10 0 63000
      = .ok ([morningChainOutRec], morningChainOutRec) ∧
    (morningChainOutRec.working_hours = round2 (((63000 : ℚ) - 32400) / 3600) ∧
      calculate_working_hours (9 * 3600) (17 * 3600 + 30 * 60) = 17 / 2) :=
  ⟨rfl, rfl,
    stored_working_hours_eq_rounded_diff
      (show check_in ⟨34200, 15⟩ oneEmployee [] 10 0 32400
          = .ok ([morningInRec], morningInRec) from rfl)
      (show check_out oneEmployee [morningInRec] 10 0 63000
          = .ok ([morningChainOutRec], morningChainOutRec) from rfl)⟩

end EMS
